import Mathlib

/-!
Verification of `.github/actions-scripts/ready-for-docs-review.js`.

The script is a one-shot batch job: it fetches a review board's field
metadata and the target item's changed files, derives a handful of scalar
values (size category, feature string, contributor classification, author
label, turnaround), adds the item to the board and then populates its
fields with one combined mutation.  The definitions below are a shallow
embedding of that logic; the theorems settle the specification claims.
-/

/-- One changed file of a pull request, as returned by the read query:
addition count, deletion count and path (`files.nodes` entries). -/
structure ChangedFile where
  additions : Nat
  deletions : Nat
  path : String
deriving DecidableEq, Repr

/-- The four size buckets of the board's `Size` single-select field. -/
inductive SizeCategory where
  | XS
  | S
  | M
  | L
deriving DecidableEq, Repr

/-- `numChanges` accumulated by the `forEach` loop: the sum of
`node.additions + node.deletions` over all changed files. -/
def numChangesOf (files : List ChangedFile) : Nat :=
  files.foldl (fun acc f => acc + f.additions + f.deletions) 0

/-- The if/else-if chain of the script (lines 111-119): first match wins,
`L` is the fallthrough. -/
def classifySize (numFiles numChanges : Nat) : SizeCategory :=
  if numFiles < 5 ∧ numChanges < 10 then .XS
  else if numFiles < 10 ∧ numChanges < 50 then .S
  else if numFiles < 10 ∧ numChanges < 250 then .M
  else .L

/-- C1: size classification is first-match-wins over the four ordered
buckets XS, S, M, L and total; each bucket is hit exactly on its stated
condition minus the earlier buckets, and the five example pairs
(4,9), (9,49), (9,249), (10,0), (4,10) land in XS, S, M, L, S. -/
theorem C1_size_classification (nf nc : Nat) :
    (classifySize nf nc = .XS ↔ (nf < 5 ∧ nc < 10)) ∧
    (classifySize nf nc = .S ↔ (¬(nf < 5 ∧ nc < 10) ∧ nf < 10 ∧ nc < 50)) ∧
    (classifySize nf nc = .M ↔
      (¬(nf < 5 ∧ nc < 10) ∧ ¬(nf < 10 ∧ nc < 50) ∧ nf < 10 ∧ nc < 250)) ∧
    (classifySize nf nc = .L ↔
      (¬(nf < 5 ∧ nc < 10) ∧ ¬(nf < 10 ∧ nc < 50) ∧ ¬(nf < 10 ∧ nc < 250))) ∧
    classifySize 4 9 = .XS ∧ classifySize 9 49 = .S ∧ classifySize 9 249 = .M ∧
    classifySize 10 0 = .L ∧ classifySize 4 10 = .S := by
  refine ⟨?_, ?_, ?_, ?_, by decide, by decide, by decide, by decide, by decide⟩ <;>
    · unfold classifySize
      split_ifs with h1 h2 h3 <;> simp_all

/-- Concrete instantiation of `C1_size_classification`. -/
theorem C1_size_classification_witness : classifySize 4 9 = SizeCategory.XS :=
  (C1_size_classification 4 9).2.2.2.2.1

/-- JavaScript `path.split('/')` on character lists: always returns at
least one (possibly empty) segment, and each `'/'` starts a new segment. -/
def splitCharList : List Char → List (List Char)
  | [] => [[]]
  | c :: rest =>
    if c = '/' then [] :: splitCharList rest
    else
      match splitCharList rest with
      | [] => [[c]]
      | seg :: segs => (c :: seg) :: segs

/-- `node.path.split('/')` of the script, on strings. -/
def splitSlash (s : String) : List String :=
  (splitCharList s.data).map (fun seg => String.mk seg)

/-- `Set.prototype.add`: append the element unless it is already present,
preserving insertion order (JavaScript sets iterate in insertion order). -/
def insertFeature (s : List (Option String)) (y : Option String) : List (Option String) :=
  if y ∈ s then s else s ++ [y]

/-- The body of the `forEach` loop as far as features are concerned
(lines 104-107): split the path, and when the first component is
`content`, add the second component (which may be absent, i.e.
JavaScript `undefined`, modelled as `none`) to the feature set. -/
def addPathFeature (acc : List (Option String)) (f : ChangedFile) : List (Option String) :=
  if (splitSlash f.path)[0]? = some "content" then insertFeature acc (splitSlash f.path)[1]?
  else acc

/-- The feature set accumulated over all changed files, in insertion order. -/
def collectFeatures (files : List ChangedFile) : List (Option String) :=
  files.foldl addPathFeature []

/-- `Array.from(features).join()`: comma separator, and an `undefined`
element renders as the empty string. -/
def joinFeatures : List (Option String) → String
  | [] => ""
  | [y] => y.getD ""
  | y :: ys => y.getD "" ++ "," ++ joinFeatures ys

/-- The feature string of a pull request (line 122). -/
def featureStringOf (files : List ChangedFile) : String :=
  joinFeatures (collectFeatures files)

lemma mem_insertFeature (s : List (Option String)) (x y : Option String) :
    x ∈ insertFeature s y ↔ x ∈ s ∨ x = y := by
  unfold insertFeature
  split_ifs with h
  · constructor
    · exact fun hx => Or.inl hx
    · rintro (hx | rfl)
      · exact hx
      · exact h
  · simp [List.mem_append]

lemma nodup_insertFeature (s : List (Option String)) (y : Option String)
    (hs : s.Nodup) : (insertFeature s y).Nodup := by
  unfold insertFeature
  split_ifs with h
  · exact hs
  · simp [List.nodup_append, hs, h]

lemma mem_foldl_addPathFeature (files : List ChangedFile)
    (acc : List (Option String)) (x : Option String) :
    x ∈ files.foldl addPathFeature acc ↔
      x ∈ acc ∨ ∃ f ∈ files,
        (splitSlash f.path)[0]? = some "content" ∧ (splitSlash f.path)[1]? = x := by
  induction files generalizing acc with
  | nil => simp
  | cons f fs ih =>
    simp only [List.foldl_cons, ih, List.exists_mem_cons_iff]
    unfold addPathFeature
    split_ifs with h
    · rw [mem_insertFeature]
      constructor
      · rintro ((hx | rfl) | hfs)
        · exact Or.inl hx
        · exact Or.inr (Or.inl ⟨h, rfl⟩)
        · exact Or.inr (Or.inr hfs)
      · rintro (hx | ⟨_, rfl⟩ | hfs)
        · exact Or.inl (Or.inl hx)
        · exact Or.inl (Or.inr rfl)
        · exact Or.inr hfs
    · constructor
      · rintro (hx | hfs)
        · exact Or.inl hx
        · exact Or.inr (Or.inr hfs)
      · rintro (hx | ⟨hc, _⟩ | hfs)
        · exact Or.inl hx
        · exact absurd hc h
        · exact Or.inr hfs

lemma nodup_foldl_addPathFeature (files : List ChangedFile)
    (acc : List (Option String)) (hacc : acc.Nodup) :
    (files.foldl addPathFeature acc).Nodup := by
  induction files generalizing acc with
  | nil => exact hacc
  | cons f fs ih =>
    simp only [List.foldl_cons]
    apply ih
    unfold addPathFeature
    split_ifs with h
    · exact nodup_insertFeature _ _ hacc
    · exact hacc

/-- C4: feature extraction collects exactly the second path components of
changed files whose first component is `content`, as a duplicate-free set,
and the example list yields the feature string `actions`. -/
theorem C4_feature_extraction (files : List ChangedFile) :
    (∀ x, x ∈ collectFeatures files ↔
      ∃ f ∈ files,
        (splitSlash f.path)[0]? = some "content" ∧ (splitSlash f.path)[1]? = x) ∧
    (collectFeatures files).Nodup ∧
    featureStringOf
      [⟨0, 0, "content/actions/a.md"⟩, ⟨0, 0, "content/actions/b.md"⟩,
       ⟨0, 0, "data/x.yml"⟩] = "actions" := by
  refine ⟨fun x => ?_, ?_, by decide⟩
  · simpa using mem_foldl_addPathFeature files [] x
  · exact nodup_foldl_addPathFeature files [] List.nodup_nil

/-- Concrete instantiation of `C4_feature_extraction`. -/
theorem C4_feature_extraction_witness :
    featureStringOf
      [⟨0, 0, "content/actions/a.md"⟩, ⟨0, 0, "content/actions/b.md"⟩,
       ⟨0, 0, "data/x.yml"⟩] = "actions" :=
  (C4_feature_extraction []).2.2

/-- C10: a two-segment path `content/<name>` contributes `<name>` itself
as a feature, and the one-segment path `content` contributes the absent
second component, rendered as the empty string in the joined output. -/
theorem C10_short_content_paths (p name : String) (a d e g : Nat)
    (h : splitSlash p = ["content", name]) :
    collectFeatures [⟨a, d, p⟩] = [some name] ∧
    featureStringOf [⟨a, d, p⟩] = name ∧
    collectFeatures [⟨e, g, "content"⟩] = [none] ∧
    featureStringOf [⟨e, g, "content"⟩] = "" := by
  have hc : splitSlash "content" = ["content"] := by decide
  have h1 : collectFeatures [⟨a, d, p⟩] = [some name] := by
    simp [collectFeatures, addPathFeature, h, insertFeature]
  have h2 : collectFeatures [⟨e, g, "content"⟩] = [none] := by
    simp [collectFeatures, addPathFeature, hc, insertFeature]
  refine ⟨h1, ?_, h2, ?_⟩
  · rw [featureStringOf, h1]
    rfl
  · rw [featureStringOf, h2]
    rfl

/-- Concrete instantiation of `C10_short_content_paths`. -/
theorem C10_short_content_paths_witness :
    splitSlash "content/README.md" = ["content", "README.md"] ∧
    collectFeatures [⟨0, 0, "content/README.md"⟩] = [some "README.md"] ∧
    featureStringOf [⟨0, 0, "content"⟩] = "" :=
  ⟨by decide,
   (C10_short_content_paths "content/README.md" "README.md" 0 0 0 0 (by decide)).1,
   (C10_short_content_paths "content/README.md" "README.md" 0 0 0 0 (by decide)).2.2.2⟩

/-- The target item of the run, as returned by the read query: its
`__typename` and, for pull requests, its changed-file list (empty for any
other typename, since the query's `... on PullRequest` fragment only
matches pull requests). -/
structure ItemData where
  typename : String
  files : List ChangedFile
deriving DecidableEq, Repr

/-- The size the run assigns to the item (lines 88-119): the default `S`
set up for issues survives unless the item is a pull request, in which
case the if/else-if chain always reassigns it from the file counts. -/
def itemSize (item : ItemData) : SizeCategory :=
  if item.typename = "PullRequest" then
    classifySize item.files.length (numChangesOf item.files)
  else .S

/-- The feature string the run assigns to the item (lines 88-123):
computed from the changed files for pull requests, the initial `''`
otherwise. -/
def itemFeature (item : ItemData) : String :=
  if item.typename = "PullRequest" then featureStringOf item.files else ""

/-- C5: a non-pull-request item always gets size `S` and an empty feature
string, whatever its other data. -/
theorem C5_issue_defaults (item : ItemData) (h : item.typename ≠ "PullRequest") :
    itemSize item = .S ∧ itemFeature item = "" := by
  constructor
  · rw [itemSize, if_neg h]
  · rw [itemFeature, if_neg h]

/-- Concrete instantiation of `C5_issue_defaults` on an issue carrying a
large file list, showing the defaults ignore it. -/
theorem C5_issue_defaults_witness :
    itemSize ⟨"Issue", [⟨500, 500, "content/actions/a.md"⟩]⟩ = .S ∧
    itemFeature ⟨"Issue", [⟨500, 500, "content/actions/a.md"⟩]⟩ = "" :=
  C5_issue_defaults ⟨"Issue", [⟨500, 500, "content/actions/a.md"⟩]⟩ (by decide)

/-- C9: a pull request is always sized by the threshold chain, never by
the issue default; in particular an empty changed-file list gives `XS`
(0 files and 0 changes are below the first thresholds). -/
theorem C9_empty_pr_is_xs :
    itemSize ⟨"PullRequest", []⟩ = .XS ∧
    (∀ files : List ChangedFile,
      itemSize ⟨"PullRequest", files⟩ = classifySize files.length (numChangesOf files)) := by
  constructor
  · decide
  · intro files
    rw [itemSize, if_pos rfl]

/-- `const turnaround = process.env.REPO === 'github/docs' ? 3 : 2`
(line 177). -/
def turnaround (repo : String) : Nat :=
  if repo = "github/docs" then 3 else 2

/-- C6: turnaround is 3 exactly for the `github/docs` repository and 2 for
every other repository. -/
theorem C6_turnaround (repo : String) :
    turnaround "github/docs" = 3 ∧ (repo ≠ "github/docs" → turnaround repo = 2) := by
  refine ⟨rfl, fun h => ?_⟩
  rw [turnaround, if_neg h]

/-- Concrete instantiation of `C6_turnaround`. -/
theorem C6_turnaround_witness :
    turnaround "github/docs" = 3 ∧ turnaround "octocat/Hello-World" = 2 :=
  ⟨(C6_turnaround "octocat/Hello-World").1,
   (C6_turnaround "octocat/Hello-World").2 (by decide)⟩

/-- The board's `Contributor type` single-select options the run can pick
(docs team, hubber or partner, OS contributor). -/
inductive ContributorType where
  | docsMember
  | hubber
  | osContributor
deriving DecidableEq, Repr

/-- The contributor-type chain of the script (lines 187-197): docs-team
membership first, then org membership, then the `github/docs` fallback to
OS contributor, and finally hubber so the item is never left untyped. -/
def contributorTypeOf (isDocsTeam isOrgMember : Bool) (repo : String) : ContributorType :=
  if isDocsTeam then .docsMember
  else if isOrgMember then .hubber
  else if repo = "github/docs" then .osContributor
  else .hubber

/-- C3: contributor classification is first-match-wins: docs-team
membership wins outright (also over org membership), org membership is
checked next, then the `github/docs` open-source case, then the hubber
fallback, so every input gets a classification. -/
theorem C3_contributor_classification (d o : Bool) (repo : String) :
    (d = true → contributorTypeOf d o repo = .docsMember) ∧
    (d = false → o = true → contributorTypeOf d o repo = .hubber) ∧
    (d = false → o = false → repo = "github/docs" →
      contributorTypeOf d o repo = .osContributor) ∧
    (d = false → o = false → repo ≠ "github/docs" →
      contributorTypeOf d o repo = .hubber) ∧
    contributorTypeOf true true repo = .docsMember := by
  refine ⟨?_, ?_, ?_, ?_, rfl⟩
  · rintro rfl
    rfl
  · rintro rfl rfl
    rfl
  · rintro rfl rfl h
    simp [contributorTypeOf, h]
  · rintro rfl rfl h
    simp [contributorTypeOf, h]

/-- Concrete instantiation of `C3_contributor_classification`: a login in
both directories classifies as docs team; a login in neither, outside
`github/docs`, falls back to hubber. -/
theorem C3_contributor_classification_witness :
    contributorTypeOf true true "github/docs" = .docsMember ∧
    contributorTypeOf false false "octocat/Hello-World" = .hubber :=
  ⟨(C3_contributor_classification true true "github/docs").1 rfl,
   (C3_contributor_classification false false "octocat/Hello-World").2.2.2.1
     rfl rfl (by decide)⟩

/-- One entry of `pullRequestContributionsByRepository` /
`issueContributionsByRepository`: the repository's `nameWithOwner` and the
`contributions.totalCount` attributed to it. -/
structure RepoContributions where
  nameWithOwner : String
  totalCount : Nat
deriving DecidableEq, Repr

/-- The count the script extracts from one contribution collection
(lines 161-171): `filter(...)[0]` keeps only the FIRST entry whose
repository is `github/docs`, and its `totalCount` is used, with `0` when
no entry matches. -/
def repoCount (entries : List RepoContributions) : Nat :=
  match (entries.filter (fun e => e.nameWithOwner == "github/docs")).head? with
  | some e => e.totalCount
  | none => 0

/-- The prior-contribution count as the claim words it: the sum of the
total counts over ALL entries attributed to `github/docs`. -/
def repoCountClaimed (entries : List RepoContributions) : Nat :=
  ((entries.filter (fun e => e.nameWithOwner == "github/docs")).map
    (fun e => e.totalCount)).sum

/-- The author label the run writes into the `Contributor` field
(lines 127-181): only for the `github/docs` repository is the
first-time-contributor flag computed, and it replaces the login exactly
when the two counts sum to at most 1. -/
def authorLabel (repo login : String) (prs issues : List RepoContributions) : String :=
  if repo = "github/docs" ∧ repoCount prs + repoCount issues ≤ 1 then
    "first time contributor"
  else login

/-- A contribution history with two `github/docs` entries in the
pull-request collection, one prior contribution each. -/
def dupPRContributions : List RepoContributions :=
  [⟨"github/docs", 1⟩, ⟨"github/docs", 1⟩]

/-- C2 counterexample: with two matching entries of one contribution each,
the claimed sum is 2 (so the claim demands the raw login), but the script
only reads the first matching entry, gets 1, and labels the author a
first-time contributor. -/
theorem C2_counterexample :
    repoCountClaimed dupPRContributions + repoCountClaimed [] = 2 ∧
    authorLabel "github/docs" "octocat" dupPRContributions [] =
      "first time contributor" ∧
    authorLabel "github/docs" "octocat" dupPRContributions [] ≠ "octocat" := by
  decide

/-- C2 (amended): for the `github/docs` repository the per-collection
count is the total count of the first matching entry (0 when none
matches), and the author label is `first time contributor` exactly when
the two counts sum to at most 1, the raw login otherwise. -/
theorem C2_first_time_contributor (login : String) (prs issues : List RepoContributions) :
    (authorLabel "github/docs" login prs issues =
      if repoCount prs + repoCount issues ≤ 1 then "first time contributor"
      else login) ∧
    ((∀ e ∈ prs, e.nameWithOwner ≠ "github/docs") → repoCount prs = 0) := by
  constructor
  · rw [authorLabel]
    split_ifs with h1 h2 h2 <;> simp_all
  · intro h
    rw [repoCount]
    have hnil : prs.filter (fun e => e.nameWithOwner == "github/docs") = [] := by
      rw [List.filter_eq_nil_iff]
      intro e he
      simpa using h e he
    rw [hnil]
    rfl

/-- Concrete instantiation of `C2_first_time_contributor`: a login with
five prior pull-request contributions keeps its raw login, and a
collection without a `github/docs` entry counts as zero. -/
theorem C2_first_time_contributor_witness :
    authorLabel "github/docs" "octocat" [⟨"github/docs", 5⟩] [] = "octocat" ∧
    repoCount [⟨"other/repo", 3⟩] = 0 :=
  ⟨(C2_first_time_contributor "octocat" [⟨"github/docs", 5⟩] []).1.trans (by decide),
   (C2_first_time_contributor "octocat" [⟨"other/repo", 3⟩] []).2 (by decide)⟩

/-- One option of a single-select board field (`options` nodes). -/
structure BoardFieldOption where
  id : String
  name : String
deriving DecidableEq, Repr

/-- One board field of the fetched project metadata (`fields.nodes`):
plain fields have an empty option list. -/
structure BoardField where
  id : String
  name : String
  options : List BoardFieldOption
deriving DecidableEq, Repr

/-- Modelled from the spec: `findFieldID` is imported from `projects.js`,
which is not part of this snapshot.  Per the spec it returns the
identifier of the field whose name exactly matches, and signals failure
(rather than silently returning a sentinel) when no field matches. -/
def findFieldID (name : String) (fields : List BoardField) : Except String String :=
  match fields.find? (fun f => f.name == name) with
  | some f => .ok f.id
  | none => .error ("field not found: " ++ name)

/-- Modelled from the spec: `findSingleSelectID` is imported from
`projects.js`, which is not part of this snapshot.  Per the spec it first
locates the field by name, then the option by name, and signals failure
when either lookup finds no match. -/
def findSingleSelectID (optionName fieldName : String) (fields : List BoardField) :
    Except String String :=
  match fields.find? (fun f => f.name == fieldName) with
  | none => .error ("field not found: " ++ fieldName)
  | some f =>
    match f.options.find? (fun o => o.name == optionName) with
    | none => .error ("option not found: " ++ optionName)
    | some o => .ok o.id

/-- Sequential fallible lookups: the first failure aborts the rest, like
the sequence of `const ... = find...` calls, each of which can throw. -/
def exceptMapM {α β : Type} (f : α → Except String β) : List α → Except String (List β)
  | [] => .ok []
  | x :: xs =>
    match f x with
    | .error e => .error e
    | .ok b =>
      match exceptMapM f xs with
      | .error e => .error e
      | .ok bs => .ok (b :: bs)

/-- The seven field names the run looks up (lines 66-72), in order. -/
def requiredFields : List String :=
  ["Date posted", "Review due date", "Status", "Feature", "Contributor type",
   "Size", "Contributor"]

/-- The eight (option, field) pairs the run looks up (lines 75-82), in
order. -/
def requiredOptions : List (String × String) :=
  [("Ready for review", "Status"), ("Hubber or partner", "Contributor type"),
   ("Docs team", "Contributor type"), ("OS contributor", "Contributor type"),
   ("XS", "Size"), ("S", "Size"), ("M", "Size"), ("L", "Size")]

/-- The lookup phase of the run (lines 66-82): all field lookups then all
single-select lookups, failing at the first missing name. -/
def lookupAllIDs (fields : List BoardField) : Except String (List String) :=
  match exceptMapM (fun n => findFieldID n fields) requiredFields with
  | .error e => .error e
  | .ok fids =>
    match exceptMapM (fun p => findSingleSelectID p.1 p.2 fields) requiredOptions with
    | .error e => .error e
    | .ok oids => .ok (fids ++ oids)

/-- The result of the initial read query: board fields plus target item. -/
structure FetchedData where
  fields : List BoardField
  item : ItemData
deriving DecidableEq, Repr

/-- The boundary calls the run can issue, in the order the script awaits
them. -/
inductive Event where
  | fetchData
  | addItem
  | contribQuery
  | docsTeamCheck
  | orgMemberCheck
  | updateFields
deriving DecidableEq, Repr

/-- Outcomes of the external boundary calls: `none` (or `false` for the
final mutation) means the call throws. -/
structure Oracle where
  fetchResult : Option FetchedData
  addResult : Option String
  contribResult : Option (List RepoContributions × List RepoContributions)
  docsTeamResult : Option Bool
  orgMemberResult : Option Bool
  updateOK : Bool
deriving DecidableEq, Repr

/-- The process environment the run reads: `REPO`, `AUTHOR_LOGIN`, and
the current time used for `Date posted`. -/
structure RunEnv where
  repo : String
  authorLogin : String
  now : Nat
deriving DecidableEq, Repr

/-- The values the single combined update mutation sets (lines 199-216):
status option, both dates, contributor type, size, feature string and
author label. -/
structure UpdatePayload where
  statusValue : String
  datePosted : Nat
  reviewDueDate : Nat
  contributorType : ContributorType
  size : SizeCategory
  feature : String
  author : String
deriving DecidableEq, Repr

/-- Observable outcome of one run: the ordered boundary-call trace,
whether the item ended up added to the board, whether its fields were
populated, the payload of the update mutation if one was issued, and the
process exit code. -/
structure RunResult where
  trace : List Event
  itemAdded : Bool
  fieldsPopulated : Bool
  payload : Option UpdatePayload
  exitCode : Nat
deriving DecidableEq, Repr

/-- The final combined mutation (lines 199-216): issued exactly once; on
failure the run exits non-zero with the item already on the board and its
fields unset (nothing is rolled back or retried). -/
def doUpdate (env : RunEnv) (o : Oracle) (item : ItemData) (author : String)
    (ctype : ContributorType) (trace0 : List Event) : RunResult :=
  let payload : UpdatePayload :=
    ⟨"Ready for review", env.now, env.now + turnaround env.repo, ctype,
     itemSize item, itemFeature item, author⟩
  if o.updateOK then ⟨trace0 ++ [.updateFields], true, true, some payload, 0⟩
  else ⟨trace0 ++ [.updateFields], true, false, some payload, 1⟩

/-- The tail of the run after the add (and, for `github/docs`, the
contribution query): the membership checks of lines 187-197 — the org
check is only awaited when the docs-team check returns false — followed
by the combined update. -/
def classifyPhase (env : RunEnv) (o : Oracle) (item : ItemData) (author : String)
    (trace0 : List Event) : RunResult :=
  match o.docsTeamResult with
  | none => ⟨trace0 ++ [.docsTeamCheck], true, false, none, 1⟩
  | some true => doUpdate env o item author .docsMember (trace0 ++ [.docsTeamCheck])
  | some false =>
    match o.orgMemberResult with
    | none => ⟨trace0 ++ [.docsTeamCheck, .orgMemberCheck], true, false, none, 1⟩
    | some om =>
      doUpdate env o item author (contributorTypeOf false om env.repo)
        (trace0 ++ [.docsTeamCheck, .orgMemberCheck])

/-- The whole run, as the sequence of awaited boundary calls of the
script: read query, pure lookups, add mutation, conditional contribution
query, membership checks, combined update.  Any failure propagates to the
top-level catch, which exits with code 1. -/
def run (env : RunEnv) (o : Oracle) : RunResult :=
  match o.fetchResult with
  | none => ⟨[.fetchData], false, false, none, 1⟩
  | some data =>
    match lookupAllIDs data.fields with
    | .error _ => ⟨[.fetchData], false, false, none, 1⟩
    | .ok _ =>
      match o.addResult with
      | none => ⟨[.fetchData, .addItem], false, false, none, 1⟩
      | some _ =>
        if env.repo = "github/docs" then
          match o.contribResult with
          | none => ⟨[.fetchData, .addItem, .contribQuery], true, false, none, 1⟩
          | some (prs, issues) =>
            classifyPhase env o data.item
              (authorLabel env.repo env.authorLogin prs issues)
              [.fetchData, .addItem, .contribQuery]
        else
          classifyPhase env o data.item env.authorLogin [.fetchData, .addItem]

lemma classifyPhase_good (env : RunEnv) (o : Oracle) (item : ItemData) (author : String)
    (trace0 : List Event)
    (ht : trace0 = [Event.fetchData, Event.addItem] ∨
          trace0 = [Event.fetchData, Event.addItem, Event.contribQuery]) :
    (classifyPhase env o item author trace0).trace.Nodup ∧
    (Event.updateFields ∈ (classifyPhase env o item author trace0).trace →
      Event.addItem ∈ (classifyPhase env o item author trace0).trace ∧
      (classifyPhase env o item author trace0).trace.getLast? = some Event.updateFields ∧
      (classifyPhase env o item author trace0).itemAdded = true) ∧
    (Event.updateFields ∈ (classifyPhase env o item author trace0).trace →
      o.updateOK = false →
      (classifyPhase env o item author trace0).fieldsPopulated = false ∧
      (classifyPhase env o item author trace0).exitCode = 1) ∧
    (∀ p, (classifyPhase env o item author trace0).payload = some p →
      p.statusValue = "Ready for review" ∧ p.datePosted = env.now ∧
      p.reviewDueDate = env.now + turnaround env.repo) ∧
    (Event.updateFields ∈ (classifyPhase env o item author trace0).trace ↔
      (classifyPhase env o item author trace0).payload.isSome = true) := by
  rcases o with ⟨fetch, add, contrib, dt, om, upd⟩
  rcases dt with - | (- | -) <;>
    rcases om with - | (- | -) <;>
      cases upd <;>
        rcases ht with rfl | rfl <;>
          simp [classifyPhase, doUpdate]

/-- C8: in every run the add-item mutation is issued before the single
combined update mutation, no boundary call is repeated (the trace is
duplicate-free), and when the combined update fails after a successful
add, the run exits non-zero with the item on the board and its fields
unset; whenever an update mutation is issued, it is the one combined
payload with status `Ready for review`, date posted now, and review due
date now plus the turnaround. -/
theorem C8_mutation_order (env : RunEnv) (o : Oracle) :
    (run env o).trace.Nodup ∧
    (Event.updateFields ∈ (run env o).trace →
      Event.addItem ∈ (run env o).trace ∧
      (run env o).trace.getLast? = some Event.updateFields ∧
      (run env o).itemAdded = true) ∧
    (Event.updateFields ∈ (run env o).trace → o.updateOK = false →
      (run env o).fieldsPopulated = false ∧ (run env o).exitCode = 1) ∧
    (∀ p, (run env o).payload = some p →
      p.statusValue = "Ready for review" ∧ p.datePosted = env.now ∧
      p.reviewDueDate = env.now + turnaround env.repo) ∧
    (Event.updateFields ∈ (run env o).trace ↔ (run env o).payload.isSome = true) := by
  rcases o with ⟨fetch, add, contrib, dt, om, upd⟩
  cases fetch with
  | none => simp [run]
  | some data =>
    cases hl : lookupAllIDs data.fields with
    | error e =>
      have hr : run env ⟨some data, add, contrib, dt, om, upd⟩ =
          ⟨[Event.fetchData], false, false, none, 1⟩ := by
        simp [run, hl]
      rw [hr]
      simp
    | ok ids =>
      cases add with
      | none =>
        have hr : run env ⟨some data, none, contrib, dt, om, upd⟩ =
            ⟨[Event.fetchData, Event.addItem], false, false, none, 1⟩ := by
          simp [run, hl]
        rw [hr]
        simp
      | some itemID =>
        by_cases hrepo : env.repo = "github/docs"
        · cases contrib with
          | none =>
            have hr : run env ⟨some data, some itemID, none, dt, om, upd⟩ =
                ⟨[Event.fetchData, Event.addItem, Event.contribQuery],
                 true, false, none, 1⟩ := by
              simp [run, hl, hrepo]
            rw [hr]
            simp
          | some pr =>
            obtain ⟨prs, issues⟩ := pr
            have hr : run env ⟨some data, some itemID, some (prs, issues), dt, om, upd⟩ =
                classifyPhase env ⟨some data, some itemID, some (prs, issues), dt, om, upd⟩
                  data.item (authorLabel env.repo env.authorLogin prs issues)
                  [Event.fetchData, Event.addItem, Event.contribQuery] := by
              simp [run, hl, hrepo]
            rw [hr]
            exact classifyPhase_good env _ data.item _ _ (Or.inr rfl)
        · have hr : run env ⟨some data, some itemID, contrib, dt, om, upd⟩ =
              classifyPhase env ⟨some data, some itemID, contrib, dt, om, upd⟩
                data.item env.authorLogin [Event.fetchData, Event.addItem] := by
            simp [run, hl, hrepo]
          rw [hr]
          exact classifyPhase_good env _ data.item _ _ (Or.inl rfl)

/-- A board schema carrying every required field and option. -/
def sampleFields : List BoardField :=
  [⟨"F1", "Date posted", []⟩,
   ⟨"F2", "Review due date", []⟩,
   ⟨"F3", "Status", [⟨"O1", "Ready for review"⟩]⟩,
   ⟨"F4", "Feature", []⟩,
   ⟨"F5", "Contributor type",
     [⟨"O2", "Hubber or partner"⟩, ⟨"O3", "Docs team"⟩, ⟨"O4", "OS contributor"⟩]⟩,
   ⟨"F6", "Size", [⟨"O5", "XS"⟩, ⟨"O6", "S"⟩, ⟨"O7", "M"⟩, ⟨"O8", "L"⟩]⟩,
   ⟨"F7", "Contributor", []⟩]

/-- A boundary outcome where everything succeeds except the final
combined update. -/
def oracleUpdateFails : Oracle :=
  ⟨some ⟨sampleFields, ⟨"PullRequest", []⟩⟩, some "ITEM", none, some false,
   some true, false⟩

/-- Concrete instantiation of `C8_mutation_order`: a run whose combined
update fails still has the item added and exits non-zero with its fields
unset. -/
theorem C8_mutation_order_witness :
    Event.updateFields ∈ (run ⟨"octocat/Hello-World", "octocat", 7⟩ oracleUpdateFails).trace ∧
    (run ⟨"octocat/Hello-World", "octocat", 7⟩ oracleUpdateFails).itemAdded = true ∧
    (run ⟨"octocat/Hello-World", "octocat", 7⟩ oracleUpdateFails).fieldsPopulated = false ∧
    (run ⟨"octocat/Hello-World", "octocat", 7⟩ oracleUpdateFails).exitCode = 1 :=
  ⟨by decide,
   ((C8_mutation_order ⟨"octocat/Hello-World", "octocat", 7⟩ oracleUpdateFails).2.1
     (by decide)).2.2,
   (C8_mutation_order ⟨"octocat/Hello-World", "octocat", 7⟩ oracleUpdateFails).2.2.1
     (by decide) rfl⟩

lemma exceptMapM_error {α β : Type} (f : α → Except String β) (l : List α)
    (x : α) (hx : x ∈ l) (e : String) (he : f x = .error e) :
    ∃ e2, exceptMapM f l = .error e2 := by
  induction l with
  | nil => cases hx
  | cons y ys ih =>
    rw [exceptMapM]
    rcases List.mem_cons.mp hx with rfl | hmem
    · rw [he]
      exact ⟨e, rfl⟩
    · cases hfy : f y with
      | error e3 => exact ⟨e3, rfl⟩
      | ok b =>
        obtain ⟨e2, h2⟩ := ih hmem
        rw [h2]
        exact ⟨e2, rfl⟩

lemma findFieldID_error (n : String) (fields : List BoardField)
    (h : ∀ f ∈ fields, f.name ≠ n) :
    findFieldID n fields = .error ("field not found: " ++ n) := by
  rw [findFieldID]
  have hnone : fields.find? (fun f => f.name == n) = none := by
    rw [List.find?_eq_none]
    intro f hf
    simpa using h f hf
  rw [hnone]

lemma findSingleSelectID_error (optName fieldName : String) (fields : List BoardField)
    (h : ∀ f ∈ fields, f.name = fieldName → ∀ opt ∈ f.options, opt.name ≠ optName) :
    ∃ e, findSingleSelectID optName fieldName fields = .error e := by
  cases hf : fields.find? (fun f => f.name == fieldName) with
  | none =>
    exact ⟨"field not found: " ++ fieldName, by simp [findSingleSelectID, hf]⟩
  | some f =>
    have hmem : f ∈ fields := List.mem_of_find?_eq_some hf
    have hname : f.name = fieldName := by
      have := List.find?_some hf
      simpa using this
    have hopt : f.options.find? (fun opt => opt.name == optName) = none := by
      rw [List.find?_eq_none]
      intro opt hoptmem
      simpa using h f hmem hname opt hoptmem
    exact ⟨"option not found: " ++ optName, by simp [findSingleSelectID, hf, hopt]⟩

/-- C7 (spec-modelled lookups): when any required field name, or any
required option name on its field, is absent from the fetched metadata,
the lookup phase returns an error rather than a sentinel, and the run
exits with code 1 having issued no mutation at all (no add, no update). -/
theorem C7_missing_name_fails (fields : List BoardField)
    (h : (∃ n ∈ requiredFields, ∀ f ∈ fields, f.name ≠ n) ∨
         (∃ p ∈ requiredOptions, ∀ f ∈ fields, f.name = p.2 →
            ∀ opt ∈ f.options, opt.name ≠ p.1)) :
    (∃ e, lookupAllIDs fields = .error e) ∧
    ∀ env o data, o.fetchResult = some data → data.fields = fields →
      (run env o).exitCode = 1 ∧ Event.addItem ∉ (run env o).trace ∧
      Event.updateFields ∉ (run env o).trace := by
  have herr : ∃ e, lookupAllIDs fields = .error e := by
    rcases h with ⟨n, hn, habs⟩ | ⟨p, hp, habs⟩
    · obtain ⟨e2, h2⟩ := exceptMapM_error (fun n2 => findFieldID n2 fields)
        requiredFields n hn _ (findFieldID_error n fields habs)
      rw [lookupAllIDs, h2]
      exact ⟨e2, rfl⟩
    · obtain ⟨e, hoe⟩ := findSingleSelectID_error p.1 p.2 fields habs
      obtain ⟨e2, h2⟩ := exceptMapM_error (fun q => findSingleSelectID q.1 q.2 fields)
        requiredOptions p hp e hoe
      rw [lookupAllIDs]
      cases h1 : exceptMapM (fun n => findFieldID n fields) requiredFields with
      | error e3 => exact ⟨e3, rfl⟩
      | ok fids =>
        rw [h2]
        exact ⟨e2, rfl⟩
  refine ⟨herr, fun env o data hfetch hfields => ?_⟩
  obtain ⟨e, he⟩ := herr
  rcases o with ⟨fetch, add, contrib, dt, om, upd⟩
  cases hfetch
  have hr : run env ⟨some data, add, contrib, dt, om, upd⟩ =
      ⟨[Event.fetchData], false, false, none, 1⟩ := by
    rw [← hfields] at he
    simp [run, he]
  rw [hr]
  exact ⟨rfl, by decide, by decide⟩

/-- Concrete instantiation of `C7_missing_name_fails` on an empty field
list: every required name is absent, the lookup errors and the run exits
with code 1 before any mutation. -/
theorem C7_missing_name_fails_witness :
    (∃ e, lookupAllIDs [] = .error e) ∧
    (run ⟨"github/docs", "octocat", 0⟩
      ⟨some ⟨[], ⟨"Issue", []⟩⟩, some "ITEM", none, some false, some false, true⟩).exitCode
      = 1 := by
  have h := C7_missing_name_fails []
    (Or.inl ⟨"Date posted", by decide, fun f hf => absurd hf (List.not_mem_nil f)⟩)
  exact ⟨h.1, (h.2 ⟨"github/docs", "octocat", 0⟩
    ⟨some ⟨[], ⟨"Issue", []⟩⟩, some "ITEM", none, some false, some false, true⟩
    ⟨[], ⟨"Issue", []⟩⟩ rfl rfl).1⟩
